import Mathlib

/-!
Verification development for the raftkit repository: a shallow embedding of
the snapshot codec (`internal/storage/disk/snap_codec.go`), the cluster
façade (`cluster.go`), the remote peer send path
(`internal/membership/remote.go`), and the daemon snapshot/promotion logic
(`internal/daemon`), together with theorems settling the specification
claims about those components.

Machine bytes are modelled as `Nat` (values `< 256` where the code reads
real file bytes); 64-bit machine integers are modelled as `Nat` with
explicit `% 2 ^ 64` where the code truncates.
-/

set_option maxRecDepth 10000

namespace Raftkit

/-! ## Big-endian 64-bit integers

`binary.BigEndian.PutUint64` / `binary.BigEndian.Uint64` from the Go
standard library, as used by `encodeSnapshot` and `decodeSnapshot` for the
trailer-length word. -/

/-- `binary.BigEndian.PutUint64`: the eight big-endian bytes of `n % 2^64`. -/
def be64 (n : Nat) : List Nat :=
  [n / 2 ^ 56 % 256, n / 2 ^ 48 % 256, n / 2 ^ 40 % 256, n / 2 ^ 32 % 256,
   n / 2 ^ 24 % 256, n / 2 ^ 16 % 256, n / 2 ^ 8 % 256, n % 256]

/-- `binary.BigEndian.Uint64`: fold eight bytes into an integer. -/
def de64 (l : List Nat) : Nat :=
  l.foldl (fun a b => a * 256 + b) 0

theorem be64_length (n : Nat) : (be64 n).length = 8 := rfl

theorem de64_be64 (n : Nat) : de64 (be64 n) = n % 2 ^ 64 := by
  simp only [be64, de64, List.foldl]
  omega

theorem de64_be64_of_lt {n : Nat} (h : n < 2 ^ 64) : de64 (be64 n) = n := by
  rw [de64_be64, Nat.mod_eq_of_lt h]

/-! ## CRC64 (ECMA)

Go's `hash/crc64` with `crc64.MakeTable(crc64.ECMA)`: the table-driven Go
code is equivalent to the bitwise reflected algorithm with polynomial
`0xC96C5795D7870F42`, initial value and final XOR `2^64 - 1`. -/

/-- The ECMA polynomial in reflected (bit-reversed) form. -/
def crc64Poly : Nat := 0xC96C5795D7870F42

/-- One bit step of the reflected CRC64 algorithm. -/
def crcBitStep (crc : Nat) : Nat :=
  if crc % 2 = 1 then (crc / 2) ^^^ crc64Poly else crc / 2

/-- Absorb one input byte (eight bit steps). -/
def crcUpdate (crc b : Nat) : Nat :=
  crcBitStep^[8] (crc ^^^ b % 256)

/-- `crc64.New(table)` + `Write(data)` + `Sum64()`. -/
def crc64 (data : List Nat) : Nat :=
  (data.foldl crcUpdate (2 ^ 64 - 1)) ^^^ (2 ^ 64 - 1)

theorem xor_lt_two_pow_64 {x y : Nat} (hx : x < 2 ^ 64) (hy : y < 2 ^ 64) :
    x ^^^ y < 2 ^ 64 :=
  Nat.bitwise_lt hx hy

theorem crcBitStep_lt {crc : Nat} (h : crc < 2 ^ 64) : crcBitStep crc < 2 ^ 64 := by
  unfold crcBitStep
  split
  · exact xor_lt_two_pow_64 (by omega) (by norm_num [crc64Poly])
  · omega

theorem crcUpdate_lt {crc : Nat} (b : Nat) (h : crc < 2 ^ 64) :
    crcUpdate crc b < 2 ^ 64 := by
  unfold crcUpdate
  have h0 : crc ^^^ b % 256 < 2 ^ 64 :=
    xor_lt_two_pow_64 h (lt_of_lt_of_le (Nat.mod_lt _ (by norm_num)) (by norm_num))
  have step : ∀ k x, x < 2 ^ 64 → crcBitStep^[k] x < 2 ^ 64 := by
    intro k
    induction k with
    | zero => intro x hx; simpa using hx
    | succ k ih =>
        intro x hx
        rw [Function.iterate_succ_apply]
        exact ih _ (crcBitStep_lt hx)
  exact step 8 _ h0

theorem crc64_lt (data : List Nat) : crc64 data < 2 ^ 64 := by
  unfold crc64
  have : ∀ l acc, acc < 2 ^ 64 → List.foldl crcUpdate acc l < 2 ^ 64 := by
    intro l
    induction l with
    | nil => intro acc h; simpa using h
    | cons b rest ih => intro acc h; exact ih _ (crcUpdate_lt b h)
  exact xor_lt_two_pow_64 (this data _ (by norm_num)) (by norm_num)

/-! ## Snapshot trailer

`internal/raftpb.SnapshotTrailer` and its `Marshal`/`Unmarshal` are
gogo-protobuf generated code that is not under the provided sources.

Modelled from the spec: the trailer holds the CRC64-ECMA of the payload, a
version tag (`V0` is the only defined value), the members list, and the
raw snapshot metadata `(term, index, ConfState)`; the marshalled form is an
injective byte encoding with `Unmarshal` its inverse.  The concrete
encoding chosen here length-prefixes every variable-length field and
writes every integer as eight big-endian bytes. -/

/-- Membership roles from `internal/raftpb` / `api`. -/
inductive MemberType
  | Voter
  | Remote
  | Learner
  | Staging
  | Local
  | LocalLearner
  | Removed
deriving DecidableEq, Repr

/-- Wire code of a member type (modelled enum values). -/
def memberTypeCode : MemberType → Nat
  | .Voter => 0
  | .Remote => 1
  | .Learner => 2
  | .Staging => 3
  | .Local => 4
  | .LocalLearner => 5
  | .Removed => 6

def memberTypeOfCode : Nat → Option MemberType
  | 0 => some .Voter
  | 1 => some .Remote
  | 2 => some .Learner
  | 3 => some .Staging
  | 4 => some .Local
  | 5 => some .LocalLearner
  | 6 => some .Removed
  | _ => none

theorem memberTypeOfCode_code (t : MemberType) :
    memberTypeOfCode (memberTypeCode t) = some t := by
  cases t <;> rfl

theorem memberTypeCode_lt (t : MemberType) : memberTypeCode t < 2 ^ 64 := by
  cases t <;> norm_num [memberTypeCode]

/-- `raftpb.Member`: `{ID uint64, Address string, Type MemberType}`.
The address string is modelled as its byte list. -/
structure Member where
  id : Nat
  address : List Nat
  type : MemberType
deriving DecidableEq, Repr

/-- `etcdraftpb.ConfState` (voter and learner id sets). -/
structure ConfState where
  voters : List Nat
  learners : List Nat
deriving DecidableEq, Repr

/-- `etcdraftpb.SnapshotMetadata`. -/
structure SnapshotMetadata where
  confState : ConfState
  index : Nat
  term : Nat
deriving DecidableEq, Repr

/-- `etcdraftpb.Snapshot`: opaque data plus metadata. -/
structure RawSnapshot where
  data : List Nat
  metadata : SnapshotMetadata
deriving DecidableEq, Repr

/-- `raftpb.SnapshotTrailer`.  The Go `CRC []byte` field (always the eight
`Sum(nil)` bytes of the payload hash) is modelled by its integer value. -/
structure SnapshotTrailer where
  crc : Nat
  version : Nat
  members : List Member
  snapshot : RawSnapshot
deriving DecidableEq, Repr

/-- `raftpb.V0`, the only defined trailer version. -/
def V0 : Nat := 0

def bytesMarshal (l : List Nat) : List Nat := be64 l.length ++ l

def u64ListMarshal (l : List Nat) : List Nat :=
  be64 l.length ++ (l.map be64).flatten

def memberMarshal (m : Member) : List Nat :=
  be64 m.id ++ be64 (memberTypeCode m.type) ++ bytesMarshal m.address

def membersMarshal (ms : List Member) : List Nat :=
  be64 ms.length ++ (ms.map memberMarshal).flatten

def confStateMarshal (cs : ConfState) : List Nat :=
  u64ListMarshal cs.voters ++ u64ListMarshal cs.learners

def rawSnapshotMarshal (s : RawSnapshot) : List Nat :=
  bytesMarshal s.data ++ confStateMarshal s.metadata.confState ++
    be64 s.metadata.index ++ be64 s.metadata.term

/-- `trailer.Marshal()`. -/
def trailerMarshal (t : SnapshotTrailer) : List Nat :=
  be64 t.crc ++ be64 t.version ++ membersMarshal t.members ++
    rawSnapshotMarshal t.snapshot

def parseU64 (l : List Nat) : Option (Nat × List Nat) :=
  if 8 ≤ l.length then some (de64 (l.take 8), l.drop 8) else none

def parseBytes (l : List Nat) : Option (List Nat × List Nat) :=
  (parseU64 l).bind fun p =>
    if p.1 ≤ p.2.length then some (p.2.take p.1, p.2.drop p.1) else none

def parseU64s : Nat → List Nat → Option (List Nat × List Nat)
  | 0, l => some ([], l)
  | n + 1, l =>
      (parseU64 l).bind fun p =>
        (parseU64s n p.2).bind fun q => some (p.1 :: q.1, q.2)

def parseU64List (l : List Nat) : Option (List Nat × List Nat) :=
  (parseU64 l).bind fun p => parseU64s p.1 p.2

def parseMember (l : List Nat) : Option (Member × List Nat) :=
  (parseU64 l).bind fun p1 =>
    (parseU64 p1.2).bind fun p2 =>
      (memberTypeOfCode p2.1).bind fun ty =>
        (parseBytes p2.2).bind fun p3 =>
          some (⟨p1.1, p3.1, ty⟩, p3.2)

def parseMembers : Nat → List Nat → Option (List Member × List Nat)
  | 0, l => some ([], l)
  | n + 1, l =>
      (parseMember l).bind fun p =>
        (parseMembers n p.2).bind fun q => some (p.1 :: q.1, q.2)

def parseConfState (l : List Nat) : Option (ConfState × List Nat) :=
  (parseU64List l).bind fun p1 =>
    (parseU64List p1.2).bind fun p2 => some (⟨p1.1, p2.1⟩, p2.2)

def parseRawSnapshot (l : List Nat) : Option (RawSnapshot × List Nat) :=
  (parseBytes l).bind fun p1 =>
    (parseConfState p1.2).bind fun p2 =>
      (parseU64 p2.2).bind fun p3 =>
        (parseU64 p3.2).bind fun p4 =>
          some (⟨p1.1, p2.1, p3.1, p4.1⟩, p4.2)

/-- `trailer.Unmarshal(buf)`: parse every field and require the whole
buffer to be consumed. -/
def trailerUnmarshal (l : List Nat) : Option SnapshotTrailer :=
  (parseU64 l).bind fun p1 =>
    (parseU64 p1.2).bind fun p2 =>
      (parseU64 p2.2).bind fun p3 =>
        (parseMembers p3.1 p3.2).bind fun p4 =>
          (parseRawSnapshot p4.2).bind fun p5 =>
            if p5.2 = [] then some ⟨p1.1, p2.1, p4.1, p5.1⟩ else none

/-! ### Marshal/unmarshal inverses -/

theorem parseU64_be64 (n : Nat) (rest : List Nat) :
    parseU64 (be64 n ++ rest) = some (n % 2 ^ 64, rest) := by
  have hlen : (be64 n).length = 8 := rfl
  unfold parseU64
  rw [List.length_append, hlen, if_pos (by omega), ← hlen,
    List.take_left, List.drop_left, de64_be64]

theorem parseU64_be64_of_lt {n : Nat} (h : n < 2 ^ 64) (rest : List Nat) :
    parseU64 (be64 n ++ rest) = some (n, rest) := by
  rw [parseU64_be64, Nat.mod_eq_of_lt h]

theorem parseBytes_marshal {l : List Nat} (h : l.length < 2 ^ 64)
    (rest : List Nat) : parseBytes (bytesMarshal l ++ rest) = some (l, rest) := by
  unfold bytesMarshal parseBytes
  rw [List.append_assoc, parseU64_be64_of_lt h, Option.some_bind]
  simp only
  rw [if_pos (by simp), List.take_left, List.drop_left]

theorem parseU64s_marshal {l : List Nat} (h : ∀ x ∈ l, x < 2 ^ 64)
    (rest : List Nat) :
    parseU64s l.length ((l.map be64).flatten ++ rest) = some (l, rest) := by
  induction l with
  | nil => simp [parseU64s]
  | cons x xs ih =>
      have hx : x < 2 ^ 64 := h x (by simp)
      simp only [List.map_cons, List.flatten_cons, List.length_cons, parseU64s,
        List.append_assoc]
      rw [parseU64_be64_of_lt hx, Option.some_bind,
        ih (fun y hy => h y (by simp [hy])), Option.some_bind]

theorem parseU64List_marshal {l : List Nat} (hlen : l.length < 2 ^ 64)
    (h : ∀ x ∈ l, x < 2 ^ 64) (rest : List Nat) :
    parseU64List (u64ListMarshal l ++ rest) = some (l, rest) := by
  unfold u64ListMarshal parseU64List
  rw [List.append_assoc, parseU64_be64_of_lt hlen, Option.some_bind]
  exact parseU64s_marshal h rest

/-- Well-formedness of a member for the modelled marshal (all machine
integers fit in 64 bits; automatic in Go where they are `uint64`/`int`). -/
def MemberWF (m : Member) : Prop :=
  m.id < 2 ^ 64 ∧ m.address.length < 2 ^ 64

instance : DecidablePred MemberWF := fun m => by
  unfold MemberWF; infer_instance

theorem parseMember_marshal {m : Member} (h : MemberWF m) (rest : List Nat) :
    parseMember (memberMarshal m ++ rest) = some (m, rest) := by
  obtain ⟨h1, h2⟩ := h
  unfold memberMarshal parseMember
  rw [List.append_assoc, List.append_assoc, parseU64_be64_of_lt h1,
    Option.some_bind, parseU64_be64_of_lt (memberTypeCode_lt m.type),
    Option.some_bind, memberTypeOfCode_code, Option.some_bind,
    parseBytes_marshal h2, Option.some_bind]

theorem parseMembers_marshal {ms : List Member} (h : ∀ m ∈ ms, MemberWF m)
    (rest : List Nat) :
    parseMembers ms.length ((ms.map memberMarshal).flatten ++ rest) =
      some (ms, rest) := by
  induction ms with
  | nil => simp [parseMembers]
  | cons m tail ih =>
      simp only [List.map_cons, List.flatten_cons, List.length_cons,
        parseMembers, List.append_assoc]
      rw [parseMember_marshal (h m (by simp)), Option.some_bind,
        ih (fun y hy => h y (by simp [hy])), Option.some_bind]

/-- Well-formedness of a `ConfState` for the modelled marshal. -/
def ConfStateWF (cs : ConfState) : Prop :=
  cs.voters.length < 2 ^ 64 ∧ (∀ v ∈ cs.voters, v < 2 ^ 64) ∧
    cs.learners.length < 2 ^ 64 ∧ ∀ v ∈ cs.learners, v < 2 ^ 64

instance : DecidablePred ConfStateWF := fun cs => by
  unfold ConfStateWF; infer_instance

theorem parseConfState_marshal {cs : ConfState} (h : ConfStateWF cs)
    (rest : List Nat) :
    parseConfState (confStateMarshal cs ++ rest) = some (cs, rest) := by
  obtain ⟨h1, h2, h3, h4⟩ := h
  unfold confStateMarshal parseConfState
  rw [List.append_assoc, parseU64List_marshal h1 h2, Option.some_bind,
    parseU64List_marshal h3 h4, Option.some_bind]

/-- Well-formedness of a raw snapshot for the modelled marshal. -/
def RawSnapshotWF (s : RawSnapshot) : Prop :=
  s.data.length < 2 ^ 64 ∧ ConfStateWF s.metadata.confState ∧
    s.metadata.index < 2 ^ 64 ∧ s.metadata.term < 2 ^ 64

instance : DecidablePred RawSnapshotWF := fun s => by
  unfold RawSnapshotWF; infer_instance

theorem parseRawSnapshot_marshal {s : RawSnapshot} (h : RawSnapshotWF s)
    (rest : List Nat) :
    parseRawSnapshot (rawSnapshotMarshal s ++ rest) = some (s, rest) := by
  obtain ⟨h1, h2, h3, h4⟩ := h
  unfold rawSnapshotMarshal parseRawSnapshot
  rw [List.append_assoc, List.append_assoc, List.append_assoc,
    parseBytes_marshal h1, Option.some_bind, parseConfState_marshal h2,
    Option.some_bind, parseU64_be64_of_lt h3, Option.some_bind,
    parseU64_be64_of_lt h4, Option.some_bind]

/-- Well-formedness of a trailer for the modelled marshal. -/
def TrailerWF (t : SnapshotTrailer) : Prop :=
  t.crc < 2 ^ 64 ∧ t.version < 2 ^ 64 ∧ t.members.length < 2 ^ 64 ∧
    (∀ m ∈ t.members, MemberWF m) ∧ RawSnapshotWF t.snapshot

instance : DecidablePred TrailerWF := fun t => by
  unfold TrailerWF; infer_instance

theorem parseRawSnapshot_marshal_closed {s : RawSnapshot}
    (h : RawSnapshotWF s) :
    parseRawSnapshot (rawSnapshotMarshal s) = some (s, []) := by
  have := parseRawSnapshot_marshal h []
  simpa using this

theorem trailerUnmarshal_marshal {t : SnapshotTrailer} (h : TrailerWF t) :
    trailerUnmarshal (trailerMarshal t) = some t := by
  obtain ⟨h1, h2, h3, h4, h5⟩ := h
  unfold trailerMarshal trailerUnmarshal membersMarshal
  simp only [List.append_assoc]
  rw [parseU64_be64_of_lt h1, Option.some_bind, parseU64_be64_of_lt h2,
    Option.some_bind, parseU64_be64_of_lt h3, Option.some_bind]
  have hmem : (t.members.map memberMarshal).flatten ++
      rawSnapshotMarshal t.snapshot =
      (t.members.map memberMarshal).flatten ++ (rawSnapshotMarshal t.snapshot ++ []) := by
    simp
  rw [hmem, parseMembers_marshal h4, Option.some_bind]
  simp only [List.append_nil]
  rw [parseRawSnapshot_marshal_closed h5, Option.some_bind]
  simp

/-! ## Snapshot file codec

`encodeSnapshot` / `decodeSnapshot` from
`internal/storage/disk/snap_codec.go` (the trailer-at-end layout, the one
matching the spec's canonical file layout).  The file contents are the
byte list; environment-driven failures (`os.Create`, `os.Open`, `Stat`)
take the file bytes as given. -/

/-- `storage.Snapshot`: raw metadata, member list, and the payload the
`Data` reader yields. -/
structure StorageSnapshot where
  Raw : RawSnapshot
  Members : List Member
  Data : List Nat
deriving DecidableEq, Repr

/-- Error outcomes of `decodeSnapshot` (`ErrSnapshotFormat` and plain I/O
errors are collapsed into `ioErr`; neither is `ErrCRCMismatch`). -/
inductive CodecErr
  | ioErr
  | unmarshalErr
  | crcMismatch
deriving DecidableEq, Repr

/-- `encodeSnapshot(path, s)`, happy path: the bytes written to `path` —
payload (streamed through the CRC), then the marshalled trailer
`{CRC, V0, Members, *s.Raw}`, then the trailer length as eight big-endian
bytes. -/
def encodeSnapshot (s : StorageSnapshot) : List Nat :=
  let crc := crc64 s.Data
  let trailer : SnapshotTrailer :=
    { crc := crc, version := V0, members := s.Members, snapshot := s.Raw }
  let buf := trailerMarshal trailer
  s.Data ++ buf ++ be64 buf.length

/-- `decodeSnapshot(path)` on a file with the given bytes:
read the last eight bytes as the trailer length, slice and unmarshal the
trailer, stream the payload (everything before the trailer) through the
CRC, compare with the trailer CRC, and return
`{Raw, Members, Data reader over the payload}`. -/
def decodeSnapshot (file : List Nat) : Except CodecErr StorageSnapshot :=
  let sz := file.length
  if sz < 8 then
    -- `f.ReadAt(bsize, stat.Size()-8)` fails (negative offset).
    .error .ioErr
  else
    let size := de64 (file.drop (sz - 8))
    if sz < size + 8 then
      -- `f.ReadAt(buf, eod)` with negative `eod` fails.
      .error .ioErr
    else
      let eod := sz - (size + 8)
      let buf := (file.drop eod).take size
      match trailerUnmarshal buf with
      | none => .error .unmarshalErr
      | some trailer =>
          if trailer.crc = crc64 (file.take eod) then
            .ok { Raw := trailer.snapshot, Members := trailer.members,
                  Data := file.take eod }
          else .error .crcMismatch

/-- Decoding a file of the canonical layout
`payload ++ trailer_bytes ++ uint64_be(len(trailer_bytes))` reaches the
CRC comparison and returns the trailer's contents exactly when the CRC
matches. -/
theorem decodeSnapshot_layout (payload : List Nat) (t : SnapshotTrailer)
    (hwf : TrailerWF t) (hl : (trailerMarshal t).length < 2 ^ 64) :
    decodeSnapshot (payload ++ trailerMarshal t ++ be64 (trailerMarshal t).length) =
      if t.crc = crc64 payload then
        .ok { Raw := t.snapshot, Members := t.members, Data := payload }
      else .error .crcMismatch := by
  set buf := trailerMarshal t with hbuf
  have hlen8 : (be64 buf.length).length = 8 := rfl
  have hszlen : (payload ++ buf ++ be64 buf.length).length =
      payload.length + buf.length + 8 := by
    simp only [List.length_append, hlen8]
  unfold decodeSnapshot
  simp only [hszlen]
  rw [if_neg (by omega)]
  have hdrop : (payload ++ buf ++ be64 buf.length).drop
      (payload.length + buf.length + 8 - 8) = be64 buf.length :=
    List.drop_left' (by simp only [List.length_append]; omega)
  rw [hdrop, de64_be64_of_lt hl]
  rw [if_neg (by omega)]
  have heod : payload.length + buf.length + 8 - (buf.length + 8) =
      payload.length := by omega
  rw [heod]
  have hdrop2 : (payload ++ buf ++ be64 buf.length).drop payload.length =
      buf ++ be64 buf.length := by
    rw [List.append_assoc]
    exact List.drop_left _ _
  have htake2 : (buf ++ be64 buf.length).take buf.length = buf :=
    List.take_left _ _
  have htakep : (payload ++ buf ++ be64 buf.length).take payload.length =
      payload := by
    rw [List.append_assoc]
    exact List.take_left _ _
  rw [hdrop2, htake2, htakep, trailerUnmarshal_marshal hwf]

/-! ## Filesystem effects of `encodeSnapshot`

The step-by-step control flow of `encodeSnapshot` (snap_codec.go, the
trailer-at-end revision), with each fallible collaborator's outcome given
by an oracle, tracking whether the target file exists when the function
returns.  The function's only deferred action is `f.Close()`; there is no
`os.Remove` on any path after `os.Create` succeeds. -/

/-- Oracle for the fallible steps of `encodeSnapshot`, in program order. -/
structure EncodeEnv where
  createErr : Bool
  copyErr : Bool
  marshalErr : Bool
  writeTrailerErr : Bool
  writeSizeErr : Bool
  flushErr : Bool
  fsyncErr : Bool
deriving DecidableEq, Repr

structure EncodeOutcome where
  errReturned : Bool
  fileOnDisk : Bool
deriving DecidableEq, Repr

/-- `encodeSnapshot`'s effect on the target path: `os.Create`; on success
`defer f.Close()`; then copy payload, marshal trailer, write trailer,
write size word, flush, fsync, returning at the first failure.  No branch
unlinks the file. -/
def encodeSnapshotFS (env : EncodeEnv) : EncodeOutcome :=
  if env.createErr then { errReturned := true, fileOnDisk := false }
  else if env.copyErr then { errReturned := true, fileOnDisk := true }
  else if env.marshalErr then { errReturned := true, fileOnDisk := true }
  else if env.writeTrailerErr then { errReturned := true, fileOnDisk := true }
  else if env.writeSizeErr then { errReturned := true, fileOnDisk := true }
  else if env.flushErr then { errReturned := true, fileOnDisk := true }
  else if env.fsyncErr then { errReturned := true, fileOnDisk := true }
  else { errReturned := false, fileOnDisk := true }

/-! ## Cluster façade (`cluster.go`)

Pool members as the façade observes them: `pool.Members()` iteration
order is the list order; `ActiveSince` is modelled as a `Nat` timestamp
with `0` for the zero `time.Time`. -/

/-- A live pool member as seen through the `Member` interface. -/
structure LiveMember where
  id : Nat
  type : MemberType
  isActive : Bool
  activeSince : Nat
deriving DecidableEq, Repr

instance : Inhabited LiveMember := ⟨⟨0, .Removed, false, 0⟩⟩

/-- The `cluster` receiver state: the pool listing plus the daemon status
fields the façade reads (`Status().ID`, `Status().Lead`) and the
forwarding flag. -/
structure Cluster where
  pool : List LiveMember
  whoami : Nat
  lead : Nat
  disableForwardingOpt : Bool
deriving DecidableEq, Repr

namespace Cluster

/-- `cluster.members(cond)`: filter the pool listing. -/
def members (c : Cluster) (cond : LiveMember → Bool) : List LiveMember :=
  c.pool.filter cond

/-- `cluster.Members()`: every pool member whose type is not Removed. -/
def Members (c : Cluster) : List LiveMember :=
  c.members (fun m => m.type != MemberType.Removed)

/-- `cluster.IsAvailable()`: `n >= q` with `q = len(Members())/2 + 1` and
`n` the number of pool members passing `IsActive()`. -/
def IsAvailable (c : Cluster) : Bool :=
  let q := (Members c).length / 2 + 1
  let n := (c.members (fun m => m.isActive)).length
  n ≥ q

/-- The loop body of `cluster.LongestActive`: `longest` starts `nil` and
`longestTime` starts the zero time; `time.Before` is `<`. -/
def longestActiveLoop :
    List LiveMember → Option LiveMember → Nat → Option LiveMember
  | [], longest, _ => longest
  | m :: rest, longest, longestTime =>
      if m.activeSince = 0 || m.type == MemberType.Local then
        longestActiveLoop rest longest longestTime
      else
        match longest with
        | none => longestActiveLoop rest (some m) longestTime
        | some _ =>
            if m.activeSince < longestTime then
              longestActiveLoop rest (some m) m.activeSince
            else
              longestActiveLoop rest longest longestTime

/-- `cluster.LongestActive()`: `none` models the "failed to find longest
active member" error. -/
def LongestActive (c : Cluster) : Option LiveMember :=
  longestActiveLoop (Members c) none 0

/-- `pool.Get(id)` as the façade uses it. -/
def GetMemebr (c : Cluster) (id : Nat) : Option LiveMember :=
  c.pool.find? (fun m => m.id == id)

def IsMember (c : Cluster) (id : Nat) : Bool :=
  (GetMemebr c id).isSome

/-- `cluster.IsMemberRemoved`.  (In Go, a missing member would be a nil
dereference; every call site runs `notMember` first, so the `none` branch
is unreachable there.) -/
def IsMemberRemoved (c : Cluster) (id : Nat) : Bool :=
  match GetMemebr c id with
  | some m => m.type == MemberType.Removed
  | none => false

end Cluster

/-- The façade's precondition errors (kinds, not Go messages). -/
inductive ClusterErr
  | notJoined
  | unknownMember (id : Nat)
  | alreadyRemoved (id : Nat)
  | leaderCannotBeRemoved (id : Nat)
  | noLeaderElected
  | notLeader
  | quorumLost
deriving DecidableEq, Repr

/-- `joined()`. -/
def joined : Cluster → Option ClusterErr := fun c =>
  if c.whoami = 0 then some .notJoined else none

/-- `notMember(id)`. -/
def notMember (id : Nat) : Cluster → Option ClusterErr := fun c =>
  if c.IsMember id then none else some (.unknownMember id)

/-- `memberRemoved(id)`. -/
def memberRemoved (id : Nat) : Cluster → Option ClusterErr := fun c =>
  if c.IsMemberRemoved id then some (.alreadyRemoved id) else none

/-- `rmLeader(id)`. -/
def rmLeader (id : Nat) : Cluster → Option ClusterErr := fun c =>
  if id = c.lead then some (.leaderCannotBeRemoved id) else none

/-- `noLeader()` (`None = 0`). -/
def noLeader : Cluster → Option ClusterErr := fun c =>
  if c.lead = 0 then some .noLeaderElected else none

/-- `disableForwarding()`. -/
def disableForwarding : Cluster → Option ClusterErr := fun c =>
  if c.lead ≠ c.whoami ∧ c.disableForwardingOpt then some .notLeader else none

/-- `available()`. -/
def available : Cluster → Option ClusterErr := fun c =>
  if c.IsAvailable then none else some .quorumLost

/-- `cluster.precondition(fns...)`: first failing predicate's error. -/
def precondition (c : Cluster) : List (Cluster → Option ClusterErr) →
    Option ClusterErr
  | [] => none
  | fn :: fns =>
      match fn c with
      | some e => some e
      | none => precondition c fns

inductive ConfChangeType
  | AddNode
  | AddLearnerNode
  | UpdateNode
  | RemoveNode
deriving DecidableEq, Repr

/-- `cluster.RemoveMember(ctx, id)`: run the precondition chain; on the
first failure return its error (nothing reaches the daemon); otherwise
propose the member re-typed as Removed with `ConfChangeRemoveNode`. -/
def RemoveMember (c : Cluster) (id : Nat) :
    Except ClusterErr (LiveMember × ConfChangeType) :=
  match precondition c
      [joined, notMember id, memberRemoved id, rmLeader id, noLeader,
       disableForwarding, available] with
  | some e => .error e
  | none =>
      -- mem, _ := c.GetMemebr(id); present because notMember passed.
      let mem := (c.GetMemebr id).getD default
      .ok ({ mem with type := .Removed }, .RemoveNode)

/-! ## Remote peer send path (`internal/membership/remote.go`) -/

/-- The raft message types `remote.Send`/`report` distinguish.  Only
`MsgSnap` is treated specially; the others stand for every other type. -/
inductive MsgType
  | MsgSnap
  | MsgApp
  | MsgHeartbeat
  | MsgVote
deriving DecidableEq, Repr

/-- Reports delivered to the consensus primitive (`reporter`). -/
inductive PeerReport
  | snapshotFinish (id : Nat)
  | snapshotFailure (id : Nat)
  | unreachable (id : Nat)
deriving DecidableEq, Repr

/-- Errors `remote.Send` can return. -/
inductive SendErr
  | ctxCanceled
  | overloaded
deriving DecidableEq, Repr

/-- `remote.report(msg, err)`: the Go `switch` over `(err, msg.Type)`. -/
def report (id : Nat) (msgType : MsgType) (err : Option SendErr) :
    List PeerReport :=
  if err = none ∧ msgType = .MsgSnap then [.snapshotFinish id]
  else if err ≠ none ∧ msgType = .MsgSnap then [.snapshotFailure id]
  else if err ≠ none then [.unreachable id]
  else []

/-- The observable state `remote.Send` depends on: whether the peer's
context has been cancelled and whether `msgc` is at capacity. -/
structure RemoteState where
  id : Nat
  ctxCanceled : Bool
  msgcFull : Bool
deriving DecidableEq, Repr

structure SendOutcome where
  err : Option SendErr
  reports : List PeerReport
  enqueued : Bool
deriving DecidableEq, Repr

/-- `remote.Send(msg)`: check the context, then `select` on the buffered
channel with a `default` branch (never blocks); the deferred closure runs
`report` whenever an error is returned. -/
def Send (r : RemoteState) (msgType : MsgType) : SendOutcome :=
  let err : Option SendErr :=
    if r.ctxCanceled then some .ctxCanceled
    else if r.msgcFull then some .overloaded
    else none
  { err := err
    reports := if err ≠ none then report r.id msgType err else []
    enqueued := err.isNone }

/-! ## Daemon applied/snap indices (`internal/daemon/daemon.go`) -/

/-- The two index counters owned by the daemon (`atomic.Uint64`, both
starting at zero). -/
structure DaemonState where
  snapIndex : Nat
  appliedIndex : Nat
deriving DecidableEq, Repr

/-- Oracle for `daemon.CreateSnapshot`'s fallible collaborators, in
program order, plus the snapshot the in-memory cache currently holds. -/
structure SnapshotEnv where
  cachedSnapIndex : Nat
  fsmSnapshotErr : Bool
  cacheCreateErr : Bool
  writeErr : Bool
  saveErr : Bool
  compactErr : Bool
deriving DecidableEq, Repr

/-- What a `CreateSnapshot` call did: final state, returned value
(`some` carries the returned snapshot's index, `none` an error return),
and which effects ran. -/
structure CreateSnapshotOutcome where
  state : DaemonState
  result : Option Nat
  fsmSnapshotCalled : Bool
  fileWritten : Bool
  compacted : Bool
deriving DecidableEq, Repr

/-- `daemon.CreateSnapshot()`: read both counters; if equal, return the
cache's latest snapshot; otherwise take an FSM snapshot, create the cache
snapshot at the applied index, write the snapshot file, record it in the
WAL, compact the cache, and finally set `snapIndex` to the applied index
captured at the start. -/
def CreateSnapshot (d : DaemonState) (env : SnapshotEnv) :
    CreateSnapshotOutcome :=
  let appliedIndex := d.appliedIndex
  let snapIndex := d.snapIndex
  if appliedIndex = snapIndex then
    { state := d, result := some env.cachedSnapIndex,
      fsmSnapshotCalled := false, fileWritten := false, compacted := false }
  else if env.fsmSnapshotErr then
    { state := d, result := none,
      fsmSnapshotCalled := true, fileWritten := false, compacted := false }
  else if env.cacheCreateErr then
    { state := d, result := none,
      fsmSnapshotCalled := true, fileWritten := false, compacted := false }
  else if env.writeErr then
    { state := d, result := none,
      fsmSnapshotCalled := true, fileWritten := false, compacted := false }
  else if env.saveErr then
    { state := d, result := none,
      fsmSnapshotCalled := true, fileWritten := true, compacted := false }
  else if env.compactErr then
    { state := d, result := none,
      fsmSnapshotCalled := true, fileWritten := true, compacted := false }
  else
    { state := { d with snapIndex := appliedIndex },
      result := some appliedIndex,
      fsmSnapshotCalled := true, fileWritten := true, compacted := true }

/-- Oracle for `daemon.publishSnapshotFile`'s fallible collaborators. -/
structure PublishEnv where
  cacheApplyErr : Bool
  fsmRestoreErr : Bool
deriving DecidableEq, Repr

/-- `daemon.publishSnapshotFile(sf)`: apply the snapshot to the cache,
restore the pool and the FSM, then set both `snapIndex` and
`appliedIndex` to the snapshot's index; on an intermediate error return
without touching the counters. -/
def publishSnapshotFile (d : DaemonState) (env : PublishEnv)
    (snapIdx : Nat) : DaemonState × Bool :=
  if env.cacheApplyErr then (d, false)
  else if env.fsmRestoreErr then (d, false)
  else ({ snapIndex := snapIdx, appliedIndex := snapIdx }, true)

/-- One transition of the daemon state, restricted to the operations that
write either counter.  `applyEntry` is `publishCommitted`'s
`appliedIndex.Set(ent.Index)` for one committed entry; the side condition
is the consensus primitive's contract (out of scope per the spec) that
committed entries are handed out at indices no smaller than what was
already applied. -/
inductive DaemonStep : DaemonState → DaemonState → Prop
  | createSnapshot (d : DaemonState) (env : SnapshotEnv) :
      DaemonStep d (CreateSnapshot d env).state
  | publishSnapshotFile (d : DaemonState) (env : PublishEnv) (snapIdx : Nat) :
      DaemonStep d (publishSnapshotFile d env snapIdx).1
  | applyEntry (d : DaemonState) (i : Nat) (h : d.appliedIndex ≤ i) :
      DaemonStep d { d with appliedIndex := i }

/-- Daemon states reachable from the initial state (both counters are
`atomic.NewUint64()`, i.e. zero). -/
inductive DaemonReachable : DaemonState → Prop
  | init : DaemonReachable ⟨0, 0⟩
  | step {d d' : DaemonState} :
      DaemonReachable d → DaemonStep d d' → DaemonReachable d'

/-! ## Promotion pass (`daemon.promotions`)

The staging catch-up test in Go is
`float64(staging) < float64(leader)*0.9`.  For match values below `2^53`
both conversions are exact and the comparison is decided by the once-
rounded product, modelled here exactly: `float64(0.9)` is the rational
`8106479329266893 / 2^53`, and the product is rounded to 53 significant
bits with IEEE round-to-nearest, ties to even. -/

/-- The 53-bit significand of `float64(0.9)`, scaled by `2^53`. -/
def float09Num : Nat := 8106479329266893

/-- Bit length of an integer below `2^128` (enough for a product of two
64-bit match values), by scanning the possible positions. -/
def bitLen (a : Nat) : Nat :=
  (List.range 128).foldl (fun acc i => if 2 ^ i ≤ a then i + 1 else acc) 0

/-- Round an integer to 53 significant bits (round to nearest, ties to
even); the result `(m, k)` represents the value `m * 2^k`. -/
def round53 (a : Nat) : Nat × Nat :=
  if a < 2 ^ 53 then (a, 0)
  else
    let k := bitLen a - 53
    let q := a / 2 ^ k
    let r := a % 2 ^ k
    let half := 2 ^ (k - 1)
    if half < r ∨ (r = half ∧ q % 2 = 1) then (q + 1, k) else (q, k)

/-- `float64(staging) < float64(leader)*0.9`, exactly, for
`staging, leader < 2^53`. -/
def matchBelowThreshold (staging leader : Nat) : Bool :=
  let p := round53 (leader * float09Num)
  staging * 2 ^ 53 < p.1 * 2 ^ p.2

/-- `rs.Progress[id].Match`: a missing entry reads as the zero value. -/
def lookupMatch (prog : List (Nat × Nat)) (id : Nat) : Nat :=
  match prog.find? (fun p => p.1 == id) with
  | some p => p.2
  | none => 0

/-- What one `promotions` pass observes: the node's raft status (its own
id and the `Progress` map, `none` when this node is not the leader), the
pool listing, and the ids with a promotion still in flight. -/
structure PromotionsInput where
  statusId : Nat
  progress : Option (List (Nat × Nat))
  membs : List LiveMember
  inProgress : List Nat
deriving DecidableEq, Repr

/-- The member scan of `daemon.promotions`: one fold accumulating the
promotion candidates, the count of active voters, and the count of
voters, exactly as the Go loop does. -/
def promotionsLoop (prog : List (Nat × Nat)) (statusId : Nat)
    (inProgress : List Nat) :
    List LiveMember → List LiveMember → Nat → Nat →
      List LiveMember × Nat × Nat
  | [], proms, reachables, voters => (proms, reachables, voters)
  | mem :: rest, proms, reachables, voters =>
      let voters' := if mem.type == MemberType.Voter then voters + 1 else voters
      let reachables' :=
        if mem.isActive && mem.type == MemberType.Voter then reachables + 1
        else reachables
      let proms' :=
        if mem.type != MemberType.Staging then proms
        else if inProgress.contains mem.id then proms
        else if matchBelowThreshold (lookupMatch prog mem.id)
            (lookupMatch prog statusId) then proms
        else proms ++ [{ mem with type := MemberType.Voter }]
      promotionsLoop prog statusId inProgress rest proms' reachables' voters'

/-- One pass of `daemon.promotions`: skip when not leader; scan members;
abort (propose nothing) when `reachables < voters/2 + 1`; otherwise the
returned list is proposed, one conf change per member. -/
def promotions (inp : PromotionsInput) : List LiveMember :=
  match inp.progress with
  | none => []
  | some prog =>
      let out := promotionsLoop prog inp.statusId inp.inProgress inp.membs [] 0 0
      if out.2.1 < out.2.2 / 2 + 1 then [] else out.1

/-- Voters in a pool listing. -/
def votersCount (membs : List LiveMember) : Nat :=
  (membs.filter (fun m => m.type == MemberType.Voter)).length

/-- Active (reachable) voters in a pool listing. -/
def reachablesCount (membs : List LiveMember) : Nat :=
  (membs.filter (fun m => m.isActive && m.type == MemberType.Voter)).length

theorem promotionsLoop_counts (prog : List (Nat × Nat)) (statusId : Nat)
    (inProgress : List Nat) (ms : List LiveMember) :
    ∀ proms r v,
      (promotionsLoop prog statusId inProgress ms proms r v).2.1 =
        r + reachablesCount ms ∧
      (promotionsLoop prog statusId inProgress ms proms r v).2.2 =
        v + votersCount ms := by
  induction ms with
  | nil => intro proms r v; simp [promotionsLoop, reachablesCount, votersCount]
  | cons mem rest ih =>
      intro proms r v
      simp only [promotionsLoop]
      obtain ⟨ih1, ih2⟩ := ih _
        (if mem.isActive && mem.type == MemberType.Voter then r + 1 else r)
        (if mem.type == MemberType.Voter then v + 1 else v)
      constructor
      · rw [ih1]
        simp only [reachablesCount, List.filter]
        cases hb : (mem.isActive && mem.type == MemberType.Voter) <;>
          (simp [hb]; try omega)
      · rw [ih2]
        simp only [votersCount, List.filter]
        cases hb : (mem.type == MemberType.Voter) <;> (simp [hb]; try omega)

/-! ## Claim theorems -/

/-- Well-formedness of a `storage.Snapshot` for the modelled trailer
marshal: all machine integers fit in 64 bits (automatic for the Go
`uint64`/`int` fields). -/
def StorageSnapshotWF (s : StorageSnapshot) : Prop :=
  s.Members.length < 2 ^ 64 ∧ (∀ m ∈ s.Members, MemberWF m) ∧
    RawSnapshotWF s.Raw ∧
    (trailerMarshal
      { crc := crc64 s.Data, version := V0,
        members := s.Members, snapshot := s.Raw }).length < 2 ^ 64

instance : DecidablePred StorageSnapshotWF := fun s => by
  unfold StorageSnapshotWF; infer_instance

/-- Claim C1: for every snapshot `s`, `encodeSnapshot` followed by
`decodeSnapshot` succeeds and yields a snapshot whose raw metadata equals
`s.Raw`, whose member list equals `s.Members`, and whose data reader
yields exactly the payload bytes of `s.Data`, stopping at the trailer
boundary. -/
theorem encodeSnapshot_decodeSnapshot_roundtrip (s : StorageSnapshot)
    (h : StorageSnapshotWF s) :
    decodeSnapshot (encodeSnapshot s) =
      .ok { Raw := s.Raw, Members := s.Members, Data := s.Data } := by
  obtain ⟨h1, h2, h3, h4⟩ := h
  have hwf : TrailerWF
      { crc := crc64 s.Data, version := V0,
        members := s.Members, snapshot := s.Raw } :=
    ⟨crc64_lt s.Data, by norm_num [V0], h1, h2, h3⟩
  unfold encodeSnapshot
  rw [decodeSnapshot_layout s.Data _ hwf h4, if_pos rfl]

theorem encodeSnapshot_decodeSnapshot_roundtrip_witness :
    StorageSnapshotWF
      { Raw := ⟨[7], ⟨⟨[1, 2], [3]⟩, 11, 2⟩⟩,
        Members := [⟨1, [97], MemberType.Voter⟩], Data := [1, 2, 3] } ∧
    decodeSnapshot (encodeSnapshot
      { Raw := ⟨[7], ⟨⟨[1, 2], [3]⟩, 11, 2⟩⟩,
        Members := [⟨1, [97], MemberType.Voter⟩], Data := [1, 2, 3] }) =
      .ok { Raw := ⟨[7], ⟨⟨[1, 2], [3]⟩, 11, 2⟩⟩,
            Members := [⟨1, [97], MemberType.Voter⟩], Data := [1, 2, 3] } :=
  ⟨by decide, encodeSnapshot_decodeSnapshot_roundtrip _ (by decide)⟩

/-- Claim C2: for every snapshot file of the canonical layout whose
payload does not hash under CRC64(ECMA) to the CRC recorded in its
trailer, `decodeSnapshot` returns the CRC-mismatch error and no snapshot
handle. -/
theorem decodeSnapshot_crc_mismatch (payload : List Nat)
    (t : SnapshotTrailer) (hwf : TrailerWF t)
    (hl : (trailerMarshal t).length < 2 ^ 64)
    (hcrc : t.crc ≠ crc64 payload) :
    decodeSnapshot (payload ++ trailerMarshal t ++
        be64 (trailerMarshal t).length) =
      .error .crcMismatch := by
  rw [decodeSnapshot_layout payload t hwf hl, if_neg hcrc]

theorem decodeSnapshot_crc_mismatch_witness :
    decodeSnapshot ([1] ++
        trailerMarshal ⟨0, 0, [], ⟨[], ⟨⟨[], []⟩, 0, 0⟩⟩⟩ ++
        be64 (trailerMarshal ⟨0, 0, [], ⟨[], ⟨⟨[], []⟩, 0, 0⟩⟩⟩).length) =
      .error .crcMismatch :=
  decodeSnapshot_crc_mismatch [1] ⟨0, 0, [], ⟨[], ⟨⟨[], []⟩, 0, 0⟩⟩⟩
    (by decide) (by decide) (by decide)

/-- Claim C3: in every reachable daemon state `snapIndex ≤ appliedIndex`;
in particular the two operations that set `snapIndex` — `CreateSnapshot`
(which sets it to the applied index captured at the start of the call)
and `publishSnapshotFile` (which sets both counters to the snapshot's
index) — preserve the inequality. -/
theorem daemon_snapIndex_le_appliedIndex :
    (∀ d, DaemonReachable d → d.snapIndex ≤ d.appliedIndex) ∧
    (∀ d env, d.snapIndex ≤ d.appliedIndex →
      (CreateSnapshot d env).state.snapIndex ≤
        (CreateSnapshot d env).state.appliedIndex) ∧
    (∀ d env idx, d.snapIndex ≤ d.appliedIndex →
      (publishSnapshotFile d env idx).1.snapIndex ≤
        (publishSnapshotFile d env idx).1.appliedIndex) := by
  have hcs : ∀ d env, d.snapIndex ≤ d.appliedIndex →
      (CreateSnapshot d env).state.snapIndex ≤
        (CreateSnapshot d env).state.appliedIndex := by
    intro d env h
    by_cases h1 : d.appliedIndex = d.snapIndex
    all_goals by_cases h2 : env.fsmSnapshotErr = true
    all_goals by_cases h3 : env.cacheCreateErr = true
    all_goals by_cases h4 : env.writeErr = true
    all_goals by_cases h5 : env.saveErr = true
    all_goals by_cases h6 : env.compactErr = true
    all_goals simp [CreateSnapshot, h1, h2, h3, h4, h5, h6, h]
  have hpub : ∀ d env idx, d.snapIndex ≤ d.appliedIndex →
      (publishSnapshotFile d env idx).1.snapIndex ≤
        (publishSnapshotFile d env idx).1.appliedIndex := by
    intro d env idx h
    by_cases h1 : env.cacheApplyErr = true
    all_goals by_cases h2 : env.fsmRestoreErr = true
    all_goals simp [publishSnapshotFile, h1, h2, h]
  refine ⟨?_, hcs, hpub⟩
  intro d hr
  induction hr with
  | init => simp
  | step hre hstep ih =>
      cases hstep with
      | createSnapshot env => exact hcs _ _ ih
      | publishSnapshotFile env idx => exact hpub _ _ _ ih
      | applyEntry i hi => simpa using le_trans ih hi

theorem daemon_snapIndex_le_appliedIndex_witness :
    ((⟨0, 0⟩ : DaemonState).snapIndex ≤
      (⟨0, 0⟩ : DaemonState).appliedIndex) ∧
    ((CreateSnapshot ⟨1, 5⟩ ⟨9, false, false, false, false, false⟩).state.snapIndex ≤
      (CreateSnapshot ⟨1, 5⟩ ⟨9, false, false, false, false, false⟩).state.appliedIndex) ∧
    ((publishSnapshotFile ⟨1, 5⟩ ⟨false, false⟩ 8).1.snapIndex ≤
      (publishSnapshotFile ⟨1, 5⟩ ⟨false, false⟩ 8).1.appliedIndex) :=
  ⟨daemon_snapIndex_le_appliedIndex.1 _ DaemonReachable.init,
   daemon_snapIndex_le_appliedIndex.2.1 ⟨1, 5⟩ _ (by decide),
   daemon_snapIndex_le_appliedIndex.2.2 ⟨1, 5⟩ ⟨false, false⟩ 8 (by decide)⟩

/-- Claim C4 as stated is false on the code: with three non-removed
members of which exactly two are active, `IsAvailable` returns `true`
although the active count is below the claimed threshold
`⌈N/2⌉ + 1 = 3`.  (`cluster.IsAvailable` uses `len(Members())/2 + 1`,
integer division, i.e. `⌊N/2⌋ + 1`.) -/
theorem isAvailable_ceil_counterexample :
    Cluster.IsAvailable
      ⟨[⟨1, .Voter, true, 1⟩, ⟨2, .Voter, true, 1⟩, ⟨3, .Voter, false, 0⟩],
        1, 1, false⟩ = true ∧
    ((Cluster.Members
        ⟨[⟨1, .Voter, true, 1⟩, ⟨2, .Voter, true, 1⟩, ⟨3, .Voter, false, 0⟩],
          1, 1, false⟩).filter (fun m => m.isActive)).length <
      ((Cluster.Members
        ⟨[⟨1, .Voter, true, 1⟩, ⟨2, .Voter, true, 1⟩, ⟨3, .Voter, false, 0⟩],
          1, 1, false⟩).length + 1) / 2 + 1 := by
  decide

/-- Claim C4, amended: `IsAvailable()` returns `true` iff the number of
non-removed members passing `IsActive()` is at least `⌊N/2⌋ + 1`, `N` the
number of non-removed members — under the assumption that removed
members are never active (the code counts active members over the whole
pool listing, removed stubs included). -/
theorem isAvailable_iff_active_floor_majority (c : Cluster)
    (hrm : ∀ m ∈ c.pool, m.type = MemberType.Removed → m.isActive = false) :
    c.IsAvailable = true ↔
      ((Cluster.Members c).filter (fun m => m.isActive)).length ≥
        (Cluster.Members c).length / 2 + 1 := by
  have hfil : c.members (fun m => m.isActive) =
      (Cluster.Members c).filter (fun m => m.isActive) := by
    unfold Cluster.Members Cluster.members
    rw [List.filter_filter]
    apply List.filter_congr
    intro m hm
    by_cases hr : m.type = MemberType.Removed
    · have := hrm m hm hr
      simp [this, hr]
    · simp [hr]
  unfold Cluster.IsAvailable
  rw [hfil]
  simp [ge_iff_le]

theorem isAvailable_iff_active_floor_majority_witness :
    (∀ m ∈ ([⟨1, .Voter, true, 1⟩, ⟨2, .Removed, false, 0⟩] :
        List LiveMember), m.type = MemberType.Removed → m.isActive = false) ∧
    (Cluster.IsAvailable ⟨[⟨1, .Voter, true, 1⟩, ⟨2, .Removed, false, 0⟩],
        1, 1, false⟩ = true ↔
      ((Cluster.Members ⟨[⟨1, .Voter, true, 1⟩, ⟨2, .Removed, false, 0⟩],
          1, 1, false⟩).filter (fun m => m.isActive)).length ≥
        (Cluster.Members ⟨[⟨1, .Voter, true, 1⟩, ⟨2, .Removed, false, 0⟩],
          1, 1, false⟩).length / 2 + 1) :=
  ⟨by decide,
   isAvailable_iff_active_floor_majority
     ⟨[⟨1, .Voter, true, 1⟩, ⟨2, .Removed, false, 0⟩], 1, 1, false⟩
     (by decide)⟩

/-- Claim C5: `LongestActive` is meant to return the non-local member
with the earliest non-zero `ActiveSince`, but the loop never initialises
`longestTime` when it adopts the first eligible member, so
`since.Before(longestTime)` compares against the zero time and is false
for every later member: the code returns the FIRST eligible member in
iteration order.  Here the pool iterates a member with `ActiveSince = 5`
before one with `ActiveSince = 3`; the code returns the former although
the latter is eligible and earlier. -/
theorem longestActive_returns_first_not_earliest :
    Cluster.LongestActive
      ⟨[⟨1, .Remote, true, 5⟩, ⟨2, .Remote, true, 3⟩], 1, 1, false⟩ =
      some ⟨1, .Remote, true, 5⟩ ∧
    (⟨2, .Remote, true, 3⟩ : LiveMember) ∈
      Cluster.Members
        ⟨[⟨1, .Remote, true, 5⟩, ⟨2, .Remote, true, 3⟩], 1, 1, false⟩ ∧
    (⟨2, .Remote, true, 3⟩ : LiveMember).type ≠ MemberType.Local ∧
    (⟨2, .Remote, true, 3⟩ : LiveMember).activeSince ≠ 0 ∧
    (⟨2, .Remote, true, 3⟩ : LiveMember).activeSince <
      (⟨1, .Remote, true, 5⟩ : LiveMember).activeSince := by
  decide

/-- Claim C6: when the peer's buffer is full and its context is not
cancelled, `Send` returns the overloaded error (without enqueueing, via
the non-blocking `select` `default` branch); and every `Send` failure is
reported to the consensus primitive — `ReportSnapshot` with failure
status for `MsgSnap`, `ReportUnreachable` for every other type. -/
theorem remote_send_overloaded_and_reports (r : RemoteState) (mt : MsgType) :
    (r.ctxCanceled = false → r.msgcFull = true →
      (Send r mt).err = some SendErr.overloaded ∧
        (Send r mt).enqueued = false) ∧
    ((Send r mt).err ≠ none →
      (Send r mt).reports =
        [if mt = MsgType.MsgSnap then PeerReport.snapshotFailure r.id
         else PeerReport.unreachable r.id]) := by
  constructor
  · intro h1 h2
    simp [Send, h1, h2]
  · intro herr
    cases hc : r.ctxCanceled <;> cases hf : r.msgcFull <;>
      cases mt <;> simp_all [Send, report]

theorem remote_send_overloaded_and_reports_witness :
    ((Send ⟨7, false, true⟩ MsgType.MsgApp).err =
        some SendErr.overloaded ∧
      (Send ⟨7, false, true⟩ MsgType.MsgApp).enqueued = false) ∧
    (Send ⟨7, false, true⟩ MsgType.MsgApp).reports =
      [if MsgType.MsgApp = MsgType.MsgSnap then PeerReport.snapshotFailure 7
       else PeerReport.unreachable 7] :=
  ⟨(remote_send_overloaded_and_reports ⟨7, false, true⟩ MsgType.MsgApp).1
      rfl rfl,
   (remote_send_overloaded_and_reports ⟨7, false, true⟩ MsgType.MsgApp).2
      (by decide)⟩

/-- Claim C7 as stated is false on the code: with three voters of which
two are reachable and a caught-up staging member, active voters
(2) are fewer than `⌈voters/2⌉ + 1 = 3`, yet the pass still proposes the
promotion.  (`daemon.promotions` aborts only when
`reachables < voters/2 + 1`, integer division, i.e. `⌊voters/2⌋ + 1`.) -/
theorem promotions_ceil_quorum_counterexample :
    promotions
      { statusId := 1, progress := some [(1, 100), (4, 100)],
        membs := [⟨2, .Voter, true, 0⟩, ⟨3, .Voter, true, 0⟩,
          ⟨5, .Voter, false, 0⟩, ⟨4, .Staging, true, 0⟩],
        inProgress := [] } =
      [⟨4, .Voter, true, 0⟩] ∧
    reachablesCount [⟨2, .Voter, true, 0⟩, ⟨3, .Voter, true, 0⟩,
        ⟨5, .Voter, false, 0⟩, ⟨4, .Staging, true, 0⟩] <
      (votersCount [⟨2, .Voter, true, 0⟩, ⟨3, .Voter, true, 0⟩,
        ⟨5, .Voter, false, 0⟩, ⟨4, .Staging, true, 0⟩] + 1) / 2 + 1 := by
  decide

/-- Claim C7, amended: a promotion pass proposes nothing when the number
of reachable voters is below `⌊voters/2⌋ + 1`. -/
theorem promotions_abort_below_floor_quorum (inp : PromotionsInput)
    (h : reachablesCount inp.membs < votersCount inp.membs / 2 + 1) :
    promotions inp = [] := by
  unfold promotions
  rcases hp : inp.progress with _ | prog
  · rfl
  · obtain ⟨h1, h2⟩ :=
      promotionsLoop_counts prog inp.statusId inp.inProgress inp.membs [] 0 0
    have hcond :
        (promotionsLoop prog inp.statusId inp.inProgress inp.membs [] 0 0).2.1 <
        (promotionsLoop prog inp.statusId inp.inProgress inp.membs [] 0 0).2.2 /
          2 + 1 := by
      rw [h1, h2]
      simpa using h
    simp [hcond]

theorem promotions_abort_below_floor_quorum_witness :
    reachablesCount ([⟨2, .Voter, false, 0⟩, ⟨4, .Staging, true, 0⟩] :
        List LiveMember) <
      votersCount ([⟨2, .Voter, false, 0⟩, ⟨4, .Staging, true, 0⟩] :
        List LiveMember) / 2 + 1 ∧
    promotions
      { statusId := 1, progress := some [(1, 100), (4, 100)],
        membs := [⟨2, .Voter, false, 0⟩, ⟨4, .Staging, true, 0⟩],
        inProgress := [] } = [] :=
  ⟨by decide,
   promotions_abort_below_floor_quorum
     { statusId := 1, progress := some [(1, 100), (4, 100)],
       membs := [⟨2, .Voter, false, 0⟩, ⟨4, .Staging, true, 0⟩],
       inProgress := [] } (by decide)⟩

/-- Claim C8: the claim says every error after the target file was
created ends with the partial file unlinked, but this `encodeSnapshot`
revision only defers `f.Close()`: at the failing input where the payload
copy fails after `os.Create` succeeded, the error is returned with the
partial file still on disk — and indeed on every post-create error path
the file survives. -/
theorem encodeSnapshot_error_keeps_partial_file :
    encodeSnapshotFS ⟨false, true, false, false, false, false, false⟩ =
      { errReturned := true, fileOnDisk := true } ∧
    ∀ env : EncodeEnv, env.createErr = false →
      (encodeSnapshotFS env).fileOnDisk = true := by
  constructor
  · rfl
  · intro env h
    obtain ⟨ce, cp, ma, wt, ws, fl, fs⟩ := env
    simp only at h
    subst h
    cases cp <;> cases ma <;> cases wt <;> cases ws <;> cases fl <;>
      cases fs <;> rfl

theorem encodeSnapshot_error_keeps_partial_file_witness :
    (encodeSnapshotFS ⟨false, false, false, true, false, false, false⟩).fileOnDisk =
      true :=
  encodeSnapshot_error_keeps_partial_file.2
    ⟨false, false, false, true, false, false, false⟩ rfl

/-- Claim C9: `RemoveMember` evaluates its precondition chain in the
order joined, id-is-member, id-not-already-removed, id-is-not-leader,
leader-known, forwarding-ok, quorum-available; the first failing
predicate's error is returned and nothing is proposed (`.error` results
return before `ProposeConfChange`); when every predicate passes, the
member is proposed re-typed as Removed.  In particular (fourth conjunct)
when `id` is the current leader and the three predicates before the
leader check pass, the cannot-remove-leader error is returned. -/
theorem removeMember_precondition_chain (c : Cluster) (id : Nat) :
    (c.whoami = 0 → RemoveMember c id = .error .notJoined) ∧
    (c.whoami ≠ 0 → c.IsMember id = false →
      RemoveMember c id = .error (.unknownMember id)) ∧
    (c.whoami ≠ 0 → c.IsMember id = true → c.IsMemberRemoved id = true →
      RemoveMember c id = .error (.alreadyRemoved id)) ∧
    (c.whoami ≠ 0 → c.IsMember id = true → c.IsMemberRemoved id = false →
      id = c.lead → RemoveMember c id = .error (.leaderCannotBeRemoved id)) ∧
    (c.whoami ≠ 0 → c.IsMember id = true → c.IsMemberRemoved id = false →
      id ≠ c.lead → c.lead = 0 → RemoveMember c id = .error .noLeaderElected) ∧
    (c.whoami ≠ 0 → c.IsMember id = true → c.IsMemberRemoved id = false →
      id ≠ c.lead → c.lead ≠ 0 →
      (c.lead ≠ c.whoami ∧ c.disableForwardingOpt = true) →
      RemoveMember c id = .error .notLeader) ∧
    (c.whoami ≠ 0 → c.IsMember id = true → c.IsMemberRemoved id = false →
      id ≠ c.lead → c.lead ≠ 0 →
      ¬(c.lead ≠ c.whoami ∧ c.disableForwardingOpt = true) →
      c.IsAvailable = false → RemoveMember c id = .error .quorumLost) ∧
    (c.whoami ≠ 0 → c.IsMember id = true → c.IsMemberRemoved id = false →
      id ≠ c.lead → c.lead ≠ 0 →
      ¬(c.lead ≠ c.whoami ∧ c.disableForwardingOpt = true) →
      c.IsAvailable = true →
      RemoveMember c id =
        .ok ({ (c.GetMemebr id).getD default with type := .Removed },
          .RemoveNode)) := by
  refine ⟨?_, ?_, ?_, ?_, ?_, ?_, ?_, ?_⟩
  · intro h1
    simp [RemoveMember, precondition, joined, h1]
  · intro h1 h2
    simp [RemoveMember, precondition, joined, notMember, h1, h2]
  · intro h1 h2 h3
    simp [RemoveMember, precondition, joined, notMember, memberRemoved,
      h1, h2, h3]
  · intro h1 h2 h3 h4
    subst h4
    simp [RemoveMember, precondition, joined, notMember, memberRemoved,
      rmLeader, h1, h2, h3]
  · intro h1 h2 h3 h4 h5
    have h45 : id ≠ 0 := h5 ▸ h4
    simp [RemoveMember, precondition, joined, notMember, memberRemoved,
      rmLeader, noLeader, h1, h2, h3, h45, h5]
  · intro h1 h2 h3 h4 h5 h6
    simp [RemoveMember, precondition, joined, notMember, memberRemoved,
      rmLeader, noLeader, disableForwarding, h1, h2, h3, h4, h5, h6]
  · intro h1 h2 h3 h4 h5 h6 h7
    simp [RemoveMember, precondition, joined, notMember, memberRemoved,
      rmLeader, noLeader, disableForwarding, available,
      h1, h2, h3, h4, h5, h6, h7]
  · intro h1 h2 h3 h4 h5 h6 h7
    simp [RemoveMember, precondition, joined, notMember, memberRemoved,
      rmLeader, noLeader, disableForwarding, available,
      h1, h2, h3, h4, h5, h6, h7]

theorem removeMember_precondition_chain_witness :
    RemoveMember
      ⟨[⟨1, .Voter, true, 1⟩, ⟨2, .Voter, true, 1⟩], 2, 1, false⟩ 1 =
      .error (.leaderCannotBeRemoved 1) :=
  (removeMember_precondition_chain
      ⟨[⟨1, .Voter, true, 1⟩, ⟨2, .Voter, true, 1⟩], 2, 1, false⟩
      1).2.2.2.1 (by decide) (by decide) (by decide) rfl

/-- Claim C10: when `appliedIndex` equals `snapIndex` at the start of
`CreateSnapshot`, the call returns the cache's latest snapshot without
calling `FSM.Snapshot`, without writing a snapshot file, without
compacting, and with both counters unchanged. -/
theorem createSnapshot_up_to_date_frame (d : DaemonState)
    (env : SnapshotEnv) (h : d.appliedIndex = d.snapIndex) :
    CreateSnapshot d env =
      { state := d, result := some env.cachedSnapIndex,
        fsmSnapshotCalled := false, fileWritten := false,
        compacted := false } := by
  unfold CreateSnapshot
  rw [if_pos h]

theorem createSnapshot_up_to_date_frame_witness :
    CreateSnapshot ⟨7, 7⟩ ⟨3, false, false, false, false, false⟩ =
      { state := ⟨7, 7⟩, result := some 3, fsmSnapshotCalled := false,
        fileWritten := false, compacted := false } :=
  createSnapshot_up_to_date_frame ⟨7, 7⟩
    ⟨3, false, false, false, false, false⟩ rfl

end Raftkit
